import Mathlib

/-!
Shallow embedding of the Helvum graph-view canvas engine
(src/view/graph_view.rs and src/application.rs), with all machine floats
modelled as rationals. The GTK/gsk transform composition
`Transform::new().translate(t).scale(s)` post-multiplies, so applying it
to a point scales first and translates afterwards.
-/

namespace Helvum

/-- A 2D point (graphene::Point, f32 coordinates modelled as rationals). -/
structure Point where
  x : ℚ
  y : ℚ
deriving DecidableEq, Repr

/-- The value computed by Rust f64::clamp / f32::clamp when lo <= hi:
if x is below lo the result is lo, above hi the result is hi, else x. -/
def rustClamp (x lo hi : ℚ) : ℚ :=
  if x < lo then lo else if x > hi then hi else x

/-- Rust f32::clamp including its assertion: the call panics (modelled as
none) when lo > hi, and otherwise returns the clamped value. -/
def rustClampChecked (x lo hi : ℚ) : Option ℚ :=
  if lo > hi then none else some (rustClamp x lo hi)

/-- The side length of the square canvas (const CANVAS_SIZE: f64 = 5000.0). -/
def CANVAS_SIZE : ℚ := 5000

/-- GraphView::ZOOM_MIN = 0.3. -/
def ZOOM_MIN : ℚ := 3/10

/-- GraphView::ZOOM_MAX = 4.0. -/
def ZOOM_MAX : ℚ := 4

/-- crate::PipewireLink: a link references its origin and destination
node and port ids. -/
structure PipewireLink where
  node_from : Nat
  port_from : Nat
  node_to : Nat
  port_to : Nat
deriving DecidableEq, Repr

/-- crate::NodeType, used by the placement heuristic in add_node. -/
inductive NodeType
  | Output
  | Input
deriving DecidableEq, Repr

/-- Log levels of the log statements in graph_view.rs (warn!, error!). -/
inductive LogLevel
  | Warn
  | Error
deriving DecidableEq, Repr

/-- Modelled from the spec: the Port widget (src/view/port.rs is not under
src) is an opaque element with a display label; its screen position is
derived, not stored. -/
structure Port where
  name : String
deriving DecidableEq, Repr

/-- Modelled from the spec: the Node widget (src/view/node.rs is not under
src) carries a display label, an order-irrelevant mapping from port id to
Port, and its allocated on-screen size (width and height are 0 until the
widget has been allocated). -/
structure Node where
  label : String
  ports : List (Nat × Port)
  width : ℚ
  height : ℚ
deriving DecidableEq, Repr

/-- Lookup in an id-keyed association list standing in for HashMap. -/
def mapGet {α : Type} (m : List (Nat × α)) (k : Nat) : Option α :=
  match m with
  | [] => none
  | (k2, v) :: rest => if k2 = k then some v else mapGet rest k

/-- HashMap::insert semantics on an association list: an existing entry for
the key is replaced in place, otherwise the binding is appended. -/
def mapInsert {α : Type} (m : List (Nat × α)) (k : Nat) (v : α) : List (Nat × α) :=
  match m with
  | [] => [(k, v)]
  | (k2, v2) :: rest => if k2 = k then (k, v) :: rest else (k2, v2) :: mapInsert rest k v

/-- HashMap::remove semantics on an association list: the first binding of
the key is dropped. -/
def mapRemove {α : Type} (m : List (Nat × α)) (k : Nat) : List (Nat × α) :=
  match m with
  | [] => []
  | (k2, v2) :: rest => if k2 = k then rest else (k2, v2) :: mapRemove rest k

/-- Modelled from the spec: a freshly created Node widget
(view::Node::new(name, id) in application.rs) has the given label and no
ports, and is not yet allocated. -/
def Node.new (label : String) : Node :=
  { label := label, ports := [], width := 0, height := 0 }

/-- Modelled from the spec: Node::add_port stores the port in the node
port-id-to-Port mapping (src/view/node.rs is not under src). -/
def Node.addPort (n : Node) (port_id : Nat) (port : Port) : Node :=
  { n with ports := mapInsert n.ports port_id port }

/-- The GraphView state: the imp::GraphView fields that the claims touch
(nodes with positions, links with their active flag, the scroll
adjustments, the zoom factor, the memorized pinch-gesture data), plus the
widget allocation used as the default zoom anchor, plus the trace of
warn!/error! log statements emitted by the modelled operations. -/
structure GraphView where
  nodes : List (Nat × Node × Point)
  links : List (Nat × PipewireLink × Bool)
  hadjustment : ℚ
  vadjustment : ℚ
  zoom_factor : ℚ
  zoom_gesture_initial_zoom : Option ℚ
  zoom_gesture_anchor : Option (ℚ × ℚ)
  alloc_width : ℚ
  alloc_height : ℚ
  log : List (LogLevel × String)
deriving DecidableEq, Repr

/-- canvas_space_to_screen_space_transform:
gsk::Transform::new().translate(Point::new(-hadj, -vadj)).scale(zoom, zoom).
gsk transforms post-multiply, so the matrix applied to a point scales it
by the zoom factor first and then translates by the negated adjustments:
screen = zoom * canvas - adjustment. -/
def canvas_space_to_screen_space_transform (g : GraphView) (p : Point) : Point :=
  { x := g.zoom_factor * p.x - g.hadjustment
    y := g.zoom_factor * p.y - g.vadjustment }

/-- screen_space_to_canvas_space_transform: the gsk matrix inverse of
canvas_space_to_screen_space_transform, canvas = (screen + adjustment) / zoom. -/
def screen_space_to_canvas_space_transform (g : GraphView) (p : Point) : Point :=
  { x := (p.x + g.hadjustment) / g.zoom_factor
    y := (p.y + g.vadjustment) / g.zoom_factor }

/-- GraphView::set_zoom_factor: clamp the requested factor into
[ZOOM_MIN, ZOOM_MAX], resolve the anchor (falling back to the middle of
the current allocation), compute the canvas-space point under the anchor
with the old zoom and scroll, and solve for new adjustments so that the
same canvas point projects back to the anchor under the new zoom. -/
def set_zoom_factor (g : GraphView) (zoom_factor : ℚ) (anchor : Option (ℚ × ℚ)) : GraphView :=
  let zf := rustClamp zoom_factor ZOOM_MIN ZOOM_MAX
  let anchor_x_screen := (anchor.getD (g.alloc_width / 2, g.alloc_height / 2)).1
  let anchor_y_screen := (anchor.getD (g.alloc_width / 2, g.alloc_height / 2)).2
  let old_zoom := g.zoom_factor
  let x_total := (anchor_x_screen + g.hadjustment) / old_zoom
  let y_total := (anchor_y_screen + g.vadjustment) / old_zoom
  { g with
    hadjustment := x_total * zf - anchor_x_screen
    vadjustment := y_total * zf - anchor_y_screen
    zoom_factor := zf }

/-- Lexicographic comparison of two (x, y) pairs, the Rust
partial_cmp of tuples of floats with unwrap_or(Ordering::Equal). -/
def pairCmp (p q : ℚ × ℚ) : Ordering :=
  if p.1 < q.1 then Ordering.lt
  else if q.1 < p.1 then Ordering.gt
  else if p.2 < q.2 then Ordering.lt
  else if q.2 < p.2 then Ordering.gt
  else Ordering.eq

/-- Iterator::max_by semantics: fold keeping the later element whenever the
accumulated one does not compare strictly greater. -/
def maxByLast (l : List (ℚ × ℚ)) : Option (ℚ × ℚ) :=
  l.foldl
    (fun acc q =>
      match acc with
      | none => some q
      | some m => if pairCmp m q = Ordering.gt then some m else some q)
    none

/-- GraphView::add_node: choose the column x from the node type, stack the
node 120 units below the lowest node whose x is within 50 units of that
column (or at y = 20 if none is), and HashMap-insert the node at that
position, replacing any existing entry for the id. -/
def add_node (g : GraphView) (id : Nat) (node : Node) (node_type : Option NodeType) : GraphView :=
  let x : ℚ :=
    match node_type with
    | some NodeType.Output => 20
    | some NodeType.Input => 820
    | none => 420
  let positions := (g.nodes.map fun kv => (kv.2.2.x, kv.2.2.y)).filter fun q => |x - q.1| < 50
  let y : ℚ :=
    match maxByLast positions with
    | some m => m.2 + 120
    | none => 20
  { g with nodes := mapInsert g.nodes id (node, { x := x, y := y }) }

/-- GraphView::remove_node: drop the entry if present, otherwise log a
warning (removals never fail). -/
def remove_node (g : GraphView) (id : Nat) : GraphView :=
  match mapGet g.nodes id with
  | some _ => { g with nodes := mapRemove g.nodes id }
  | none => { g with log := g.log ++ [(LogLevel.Warn, "Tried to remove non-existant node from graph")] }

/-- GraphView::add_port: if the node exists, add the port to it; otherwise
log an error and leave the state untouched (the port is dropped). -/
def add_port (g : GraphView) (node_id : Nat) (port_id : Nat) (port : Port) : GraphView :=
  match mapGet g.nodes node_id with
  | some np =>
      { g with nodes := mapInsert g.nodes node_id (np.1.addPort port_id port, np.2) }
  | none =>
      { g with log := g.log ++ [(LogLevel.Error, "Node not found when trying to add port to graph")] }

/-- GraphView::add_link: HashMap-insert of the (link, active) pair under the
link id; no check of the id or of the referenced endpoints, no logging. -/
def add_link (g : GraphView) (link_id : Nat) (link : PipewireLink) (active : Bool) : GraphView :=
  { g with links := mapInsert g.links link_id (link, active) }

/-- GraphView::set_link_state: update the active flag if the link exists,
otherwise log a warning. -/
def set_link_state (g : GraphView) (link_id : Nat) (active : Bool) : GraphView :=
  match mapGet g.links link_id with
  | some lk => { g with links := mapInsert g.links link_id (lk.1, active) }
  | none => { g with log := g.log ++ [(LogLevel.Warn, "Link state changed on unknown link")] }

/-- GraphView::remove_link: unconditional HashMap::remove. -/
def remove_link (g : GraphView) (id : Nat) : GraphView :=
  { g with links := mapRemove g.links id }

/-- GraphView::move_node: looks the node up by id and panics (modelled as
none) when it is absent; otherwise clamps the target position into the
canvas extent minus the node on-screen footprint and stores it. Each
f32::clamp call itself panics (none) when its lower bound exceeds its
upper bound, which happens when the node footprint exceeds CANVAS_SIZE. -/
def move_node (g : GraphView) (id : Nat) (point : Point) : Option GraphView :=
  match mapGet g.nodes id with
  | none => none
  | some np =>
      match rustClampChecked point.x (-(CANVAS_SIZE / 2)) (CANVAS_SIZE / 2 - np.1.width),
          rustClampChecked point.y (-(CANVAS_SIZE / 2)) (CANVAS_SIZE / 2 - np.1.height) with
      | some qx, some qy =>
          some { g with nodes := mapInsert g.nodes id (np.1, { x := qx, y := qy }) }
      | _, _ => none

/-- The connect_scroll handler of setup_scroll_zooming, for a tick with the
modifier held: set_zoom_factor(current + 0.1 * -delta_y, None). The anchor
argument is None, so set_zoom_factor falls back to the allocation center;
the pointer position is not consulted. -/
def scroll_zoom_handler (g : GraphView) (delta_y : ℚ) : GraphView :=
  set_zoom_factor g (g.zoom_factor + (1/10) * (-delta_y)) none

/-- The connect_begin handler of setup_zoom_gesture: memorize the current
zoom factor and the current bounding-box center of the gesture. -/
def zoom_gesture_begin (g : GraphView) (bbox_center : Option (ℚ × ℚ)) : GraphView :=
  { g with
    zoom_gesture_initial_zoom := some g.zoom_factor
    zoom_gesture_anchor := bbox_center }

/-- The connect_scale_changed handler of setup_zoom_gesture: reads the
memorized initial zoom (expect panics, modelled as none, when it is unset)
and calls set_zoom_factor(initial_zoom * delta, bounding_box_center())
with the bounding-box center sampled at this tick. -/
def zoom_gesture_scale_changed (g : GraphView) (delta : ℚ) (bbox_center : Option (ℚ × ℚ)) :
    Option GraphView :=
  match g.zoom_gesture_initial_zoom with
  | none => none
  | some initial_zoom => some (set_zoom_factor g (initial_zoom * delta) bbox_center)

/-- The per-link cairo stroke parameters set by snapshot_links: the line
width is 2.0 * zoom_factor for every link, and the dash pattern is empty
(solid) for an active link and the fixed segments 10.0, 5.0 for an
inactive one. -/
def snapshot_links (g : GraphView) : List (ℚ × List ℚ) :=
  g.links.map fun kv => (2 * g.zoom_factor, if kv.2.2 then [] else [10, 5])

/-- A concrete GraphView state used to instantiate the theorems: empty
model, zoom 1, no scrolling, an 800 by 600 allocation. -/
def sampleView : GraphView :=
  { nodes := []
    links := []
    hadjustment := 0
    vadjustment := 0
    zoom_factor := 1
    zoom_gesture_initial_zoom := none
    zoom_gesture_anchor := none
    alloc_width := 800
    alloc_height := 600
    log := [] }

theorem mapGet_insert_self {α : Type} (m : List (Nat × α)) (k : Nat) (v : α) :
    mapGet (mapInsert m k v) k = some v := by
  induction m with
  | nil => simp [mapInsert, mapGet]
  | cons hd tl ih =>
    obtain ⟨k2, v2⟩ := hd
    by_cases h : k2 = k <;> simp [mapInsert, mapGet, h, ih]

theorem mapGet_insert_ne {α : Type} (m : List (Nat × α)) (k k' : Nat) (v : α) (h : k' ≠ k) :
    mapGet (mapInsert m k v) k' = mapGet m k' := by
  have h2 : k ≠ k' := Ne.symm h
  induction m with
  | nil => simp [mapInsert, mapGet, h2]
  | cons hd tl ih =>
    obtain ⟨k2, v2⟩ := hd
    by_cases hk : k2 = k
    · subst hk
      simp [mapInsert, mapGet, h2]
    · simp [mapInsert, mapGet, hk, ih]

theorem mapInsert_insert_self {α : Type} (m : List (Nat × α)) (k : Nat) (v : α) :
    mapInsert (mapInsert m k v) k v = mapInsert m k v := by
  induction m with
  | nil => simp [mapInsert]
  | cons hd tl ih =>
    obtain ⟨k2, v2⟩ := hd
    by_cases h : k2 = k <;> simp [mapInsert, h, ih]

theorem rustClamp_bounds (x lo hi : ℚ) (h : lo ≤ hi) :
    lo ≤ rustClamp x lo hi ∧ rustClamp x lo hi ≤ hi := by
  unfold rustClamp
  split_ifs <;> constructor <;> linarith

theorem rustClamp_eq_self (x lo hi : ℚ) (h1 : lo ≤ x) (h2 : x ≤ hi) :
    rustClamp x lo hi = x := by
  unfold rustClamp
  split_ifs <;> linarith

theorem rustClampChecked_of_le (x lo hi : ℚ) (h : lo ≤ hi) :
    rustClampChecked x lo hi = some (rustClamp x lo hi) := by
  unfold rustClampChecked
  rw [if_neg (not_lt.mpr h)]

/-- The clamped zoom factor is never zero, since it is at least ZOOM_MIN. -/
theorem clamped_zoom_ne_zero (z : ℚ) : rustClamp z ZOOM_MIN ZOOM_MAX ≠ 0 := by
  intro h0
  have h := (rustClamp_bounds z ZOOM_MIN ZOOM_MAX (by norm_num [ZOOM_MIN, ZOOM_MAX])).1
  rw [h0] at h
  norm_num [ZOOM_MIN] at h

/-- The scalar core of the anchor-preserving zoom solve: projecting the
canvas coordinate under the anchor back through the updated adjustment
recovers the original canvas coordinate, for any nonzero new zoom. -/
theorem zoom_solve (a h z zf : ℚ) (hzf : zf ≠ 0) :
    (a + ((a + h) / z * zf - a)) / zf = (a + h) / z := by
  rcases eq_or_ne z 0 with h0 | h0
  · rw [h0]
    simp
  · field_simp
    ring

/-- Anchor invariance of set_zoom_factor for the resolved anchor: the canvas
point under the resolved anchor is the same before and after the zoom
change, whatever anchor argument (explicit or defaulted) is used. -/
theorem set_zoom_anchor_fixed (g : GraphView) (z2 : ℚ) (anchor : Option (ℚ × ℚ)) :
    screen_space_to_canvas_space_transform (set_zoom_factor g z2 anchor)
        { x := (anchor.getD (g.alloc_width / 2, g.alloc_height / 2)).1
          y := (anchor.getD (g.alloc_width / 2, g.alloc_height / 2)).2 }
      = screen_space_to_canvas_space_transform g
        { x := (anchor.getD (g.alloc_width / 2, g.alloc_height / 2)).1
          y := (anchor.getD (g.alloc_width / 2, g.alloc_height / 2)).2 } := by
  have hz : rustClamp z2 ZOOM_MIN ZOOM_MAX ≠ 0 := clamped_zoom_ne_zero z2
  simp only [set_zoom_factor, screen_space_to_canvas_space_transform, Point.mk.injEq]
  exact ⟨zoom_solve _ _ _ _ hz, zoom_solve _ _ _ _ hz⟩

/-- C1: for every state whose zoom factor lies in [0.3, 4.0] and every
screen point p, the canvas-to-screen transform applied to the
screen-to-canvas transform of p gives back exactly p, in particular to
within 1e-6 in each coordinate. -/
theorem round_trip_canvas_screen (g : GraphView) (p : Point)
    (h1 : ZOOM_MIN ≤ g.zoom_factor) (h2 : g.zoom_factor ≤ ZOOM_MAX) :
    canvas_space_to_screen_space_transform g (screen_space_to_canvas_space_transform g p) = p ∧
    |(canvas_space_to_screen_space_transform g
        (screen_space_to_canvas_space_transform g p)).x - p.x| ≤ 1/1000000 ∧
    |(canvas_space_to_screen_space_transform g
        (screen_space_to_canvas_space_transform g p)).y - p.y| ≤ 1/1000000 := by
  have hz : g.zoom_factor ≠ 0 := by
    rw [ZOOM_MIN] at h1
    intro h0
    rw [h0] at h1
    norm_num at h1
  have key : canvas_space_to_screen_space_transform g
      (screen_space_to_canvas_space_transform g p) = p := by
    obtain ⟨px, py⟩ := p
    simp only [canvas_space_to_screen_space_transform, screen_space_to_canvas_space_transform,
      Point.mk.injEq]
    constructor <;> field_simp
  refine ⟨key, ?_, ?_⟩ <;> rw [key] <;> simp

/-- Witness for C1 at a concrete state and point. -/
theorem round_trip_canvas_screen_witness :
    (ZOOM_MIN ≤ sampleView.zoom_factor ∧ sampleView.zoom_factor ≤ ZOOM_MAX) ∧
    (canvas_space_to_screen_space_transform sampleView
        (screen_space_to_canvas_space_transform sampleView { x := 5, y := 7 })
          = { x := 5, y := 7 } ∧
    |(canvas_space_to_screen_space_transform sampleView
        (screen_space_to_canvas_space_transform sampleView { x := 5, y := 7 })).x - 5| ≤ 1/1000000 ∧
    |(canvas_space_to_screen_space_transform sampleView
        (screen_space_to_canvas_space_transform sampleView { x := 5, y := 7 })).y - 7| ≤ 1/1000000) :=
  ⟨⟨by norm_num [ZOOM_MIN, sampleView], by norm_num [ZOOM_MAX, sampleView]⟩,
    round_trip_canvas_screen sampleView { x := 5, y := 7 }
      (by norm_num [ZOOM_MIN, sampleView]) (by norm_num [ZOOM_MAX, sampleView])⟩

/-- C2: after set_zoom_factor with any requested factor (clamping included)
and any supplied screen-space anchor, the canvas-space point under the
anchor computed in the new state equals the one computed in the old state:
the content under the anchor does not move. -/
theorem set_zoom_factor_anchor_invariant (g : GraphView) (z2 ax ay : ℚ) :
    screen_space_to_canvas_space_transform (set_zoom_factor g z2 (some (ax, ay)))
        { x := ax, y := ay }
      = screen_space_to_canvas_space_transform g { x := ax, y := ay } :=
  set_zoom_anchor_fixed g z2 (some (ax, ay))

/-- C3 counterexample: inserting id 1 twice with labels a then b leaves the
second node stored (with a recomputed position), the labels differ, and no
log entry is emitted; the first entry is not kept. -/
theorem add_node_duplicate_cex :
    mapGet (add_node (add_node sampleView 1 (Node.new "a") none) 1 (Node.new "b") none).nodes 1
        = some (Node.new "b", { x := 420, y := 140 }) ∧
    (Node.new "b").label ≠ (Node.new "a").label ∧
    (add_node (add_node sampleView 1 (Node.new "a") none) 1 (Node.new "b") none).log = [] := by
  refine ⟨?_, by decide, ?_⟩ <;>
    norm_num [add_node, sampleView, Node.new, mapInsert, mapGet, maxByLast, pairCmp]

/-- C3 amended: re-inserting an id already present replaces the stored
entry with the new node (last write wins, position recomputed by the
placement heuristic) and logs nothing. -/
theorem add_node_duplicate_replaces (g : GraphView) (id : Nat) (old : Node × Point)
    (n : Node) (ty : Option NodeType) (h : mapGet g.nodes id = some old) :
    (∃ p, mapGet (add_node g id n ty).nodes id = some (n, p)) ∧
    (add_node g id n ty).log = g.log :=
  ⟨⟨_, mapGet_insert_self g.nodes id _⟩, rfl⟩

/-- Witness for the amended C3 at a concrete duplicate insertion. -/
theorem add_node_duplicate_replaces_witness :
    (mapGet (add_node sampleView 1 (Node.new "a") none).nodes 1
        = some (Node.new "a", { x := 420, y := 20 })) ∧
    ((∃ p, mapGet (add_node (add_node sampleView 1 (Node.new "a") none) 1
          (Node.new "b") none).nodes 1 = some (Node.new "b", p)) ∧
      (add_node (add_node sampleView 1 (Node.new "a") none) 1 (Node.new "b") none).log
        = (add_node sampleView 1 (Node.new "a") none).log) :=
  ⟨by norm_num [add_node, sampleView, Node.new, mapInsert, mapGet, maxByLast],
    add_node_duplicate_replaces _ 1 (Node.new "a", { x := 420, y := 20 }) (Node.new "b") none
      (by norm_num [add_node, sampleView, Node.new, mapInsert, mapGet, maxByLast])⟩

/-- C5 counterexample: in a state with zoom 1, no scrolling and an 800 by
600 allocation, a modifier scroll tick with deltaY = -1 and the pointer at
screen point (0, 0) moves the canvas point under the pointer: the handler
does not anchor the zoom at the pointer position. -/
theorem scroll_zoom_pointer_cex :
    screen_space_to_canvas_space_transform (scroll_zoom_handler sampleView (-1))
        { x := 0, y := 0 }
      ≠ screen_space_to_canvas_space_transform sampleView { x := 0, y := 0 } := by
  norm_num [scroll_zoom_handler, set_zoom_factor, screen_space_to_canvas_space_transform,
    rustClamp, sampleView, ZOOM_MIN, ZOOM_MAX, Point.mk.injEq]

/-- C5 amended: a modifier scroll tick sets the zoom factor to
current + (-0.1 x deltaY) clamped into the zoom bounds, anchored at the
center of the widget allocation (the anchor argument is None): the canvas
point under the allocation center is unchanged. -/
theorem scroll_zoom_center_anchor (g : GraphView) (delta_y : ℚ) :
    (scroll_zoom_handler g delta_y).zoom_factor
        = rustClamp (g.zoom_factor + (1/10) * (-delta_y)) ZOOM_MIN ZOOM_MAX ∧
    screen_space_to_canvas_space_transform (scroll_zoom_handler g delta_y)
        { x := g.alloc_width / 2, y := g.alloc_height / 2 }
      = screen_space_to_canvas_space_transform g
        { x := g.alloc_width / 2, y := g.alloc_height / 2 } :=
  ⟨rfl, set_zoom_anchor_fixed g (g.zoom_factor + (1/10) * (-delta_y)) none⟩

/-- C6 counterexample: after a gesture begin that records anchor (100, 100)
at zoom 1, a scale tick with delta 2 whose current bounding-box center is
(0, 0) produces a different state than anchoring at the recorded point:
the recorded anchor is not the one used. -/
theorem zoom_gesture_fixed_anchor_cex :
    zoom_gesture_scale_changed (zoom_gesture_begin sampleView (some (100, 100))) 2 (some (0, 0))
      ≠ some (set_zoom_factor (zoom_gesture_begin sampleView (some (100, 100))) 2
          (some (100, 100))) := by
  norm_num [zoom_gesture_scale_changed, zoom_gesture_begin, set_zoom_factor, rustClamp,
    sampleView, ZOOM_MIN, ZOOM_MAX, GraphView.mk.injEq]

/-- C6 amended: every scale tick calls the anchor-preserving zoom math with
the bounding-box center sampled at that tick (re-sampled, not the recorded
anchor) and the target zoom initialZoom x delta, which is then clamped. -/
theorem zoom_gesture_tick (g : GraphView) (initial_zoom delta : ℚ) (c : Option (ℚ × ℚ))
    (h : g.zoom_gesture_initial_zoom = some initial_zoom) :
    zoom_gesture_scale_changed g delta c = some (set_zoom_factor g (initial_zoom * delta) c) ∧
    (set_zoom_factor g (initial_zoom * delta) c).zoom_factor
        = rustClamp (initial_zoom * delta) ZOOM_MIN ZOOM_MAX := by
  constructor
  · simp [zoom_gesture_scale_changed, h]
  · rfl

/-- Witness for the amended C6 at a concrete gesture. -/
theorem zoom_gesture_tick_witness :
    ((zoom_gesture_begin sampleView (some (100, 100))).zoom_gesture_initial_zoom = some 1) ∧
    (zoom_gesture_scale_changed (zoom_gesture_begin sampleView (some (100, 100))) 2 (some (0, 0))
        = some (set_zoom_factor (zoom_gesture_begin sampleView (some (100, 100))) (1 * 2)
            (some (0, 0))) ∧
      (set_zoom_factor (zoom_gesture_begin sampleView (some (100, 100))) (1 * 2)
          (some (0, 0))).zoom_factor = rustClamp (1 * 2) ZOOM_MIN ZOOM_MAX) :=
  ⟨rfl, zoom_gesture_tick (zoom_gesture_begin sampleView (some (100, 100))) 1 2 (some (0, 0)) rfl⟩

/-- A concrete allocated node widget used to instantiate the theorems. -/
def nodeSized : Node :=
  { label := "n", ports := [], width := 100, height := 50 }

/-- sampleView with one node of id 1 at the canvas origin. -/
def viewWithNode : GraphView :=
  { sampleView with nodes := [(1, (nodeSized, { x := 0, y := 0 }))] }

/-- A concrete link between ports of nodes 1 and 2. -/
def linkAB : PipewireLink :=
  { node_from := 1, port_from := 10, node_to := 2, port_to := 20 }

/-- sampleView with one inactive link of id 100, at zoom 1. -/
def viewWithLink : GraphView :=
  { sampleView with links := [(100, (linkAB, false))] }

/-- viewWithLink at zoom 2. -/
def viewWithLinkZoom2 : GraphView :=
  { viewWithLink with zoom_factor := 2 }

/-- C4: moving a node present in the model clamps the stored position into
[-2500, 2500 - width] x [-2500, 2500 - height]; a drag to (10000, 0) ends
at x = 2500 - width, and re-applying the move at the clamped position
changes nothing (the clamp is idempotent). -/
theorem move_node_clamps (g : GraphView) (id : Nat) (n : Node) (p0 pt : Point)
    (h : mapGet g.nodes id = some (n, p0))
    (hw0 : 0 ≤ n.width) (hw : n.width ≤ 5000)
    (hh0 : 0 ≤ n.height) (hh : n.height ≤ 5000) :
    ∃ q : Point,
      move_node g id pt = some { g with nodes := mapInsert g.nodes id (n, q) } ∧
      -2500 ≤ q.x ∧ q.x ≤ 2500 - n.width ∧
      -2500 ≤ q.y ∧ q.y ≤ 2500 - n.height ∧
      (pt = { x := 10000, y := 0 } → q.x = 2500 - n.width) ∧
      move_node { g with nodes := mapInsert g.nodes id (n, q) } id q
        = some { g with nodes := mapInsert g.nodes id (n, q) } := by
  have hc : -(CANVAS_SIZE / 2) = (-2500 : ℚ) := by norm_num [CANVAS_SIZE]
  have hcw : CANVAS_SIZE / 2 - n.width = 2500 - n.width := by norm_num [CANVAS_SIZE]
  have hch : CANVAS_SIZE / 2 - n.height = 2500 - n.height := by norm_num [CANVAS_SIZE]
  have hcx := rustClampChecked_of_le pt.x (-2500 : ℚ) (2500 - n.width) (by linarith)
  have hcy := rustClampChecked_of_le pt.y (-2500 : ℚ) (2500 - n.height) (by linarith)
  refine ⟨{ x := rustClamp pt.x (-2500) (2500 - n.width)
            y := rustClamp pt.y (-2500) (2500 - n.height) }, ?_, ?_, ?_, ?_, ?_, ?_, ?_⟩
  · simp [move_node, h, hcx, hcy, hc, hcw, hch]
  · exact (rustClamp_bounds pt.x (-2500) (2500 - n.width) (by linarith)).1
  · exact (rustClamp_bounds pt.x (-2500) (2500 - n.width) (by linarith)).2
  · exact (rustClamp_bounds pt.y (-2500) (2500 - n.height) (by linarith)).1
  · exact (rustClamp_bounds pt.y (-2500) (2500 - n.height) (by linarith)).2
  · intro hpt
    rw [hpt]
    show rustClamp 10000 (-2500) (2500 - n.width) = 2500 - n.width
    unfold rustClamp
    split_ifs with h1 h2
    · linarith
    · rfl
    · linarith
  · have hqx := rustClamp_bounds pt.x (-2500) (2500 - n.width) (by linarith)
    have hqy := rustClamp_bounds pt.y (-2500) (2500 - n.height) (by linarith)
    have e1 : rustClamp (rustClamp pt.x (-2500) (2500 - n.width)) (-2500) (2500 - n.width)
        = rustClamp pt.x (-2500) (2500 - n.width) := rustClamp_eq_self _ _ _ hqx.1 hqx.2
    have e2 : rustClamp (rustClamp pt.y (-2500) (2500 - n.height)) (-2500) (2500 - n.height)
        = rustClamp pt.y (-2500) (2500 - n.height) := rustClamp_eq_self _ _ _ hqy.1 hqy.2
    have hcx2 := rustClampChecked_of_le (rustClamp pt.x (-2500) (2500 - n.width))
      (-2500 : ℚ) (2500 - n.width) (by linarith)
    have hcy2 := rustClampChecked_of_le (rustClamp pt.y (-2500) (2500 - n.height))
      (-2500 : ℚ) (2500 - n.height) (by linarith)
    simp [move_node, mapGet_insert_self, hcx2, hcy2, hc, hcw, hch, e1, e2,
      mapInsert_insert_self]

/-- Witness for C4: the node of viewWithNode dragged to (10000, 0). -/
theorem move_node_clamps_witness :
    (mapGet viewWithNode.nodes 1 = some (nodeSized, { x := 0, y := 0 }) ∧
      0 ≤ nodeSized.width ∧ nodeSized.width ≤ 5000 ∧
      0 ≤ nodeSized.height ∧ nodeSized.height ≤ 5000) ∧
    (∃ q : Point,
      move_node viewWithNode 1 { x := 10000, y := 0 }
          = some { viewWithNode with nodes := mapInsert viewWithNode.nodes 1 (nodeSized, q) } ∧
      -2500 ≤ q.x ∧ q.x ≤ 2500 - nodeSized.width ∧
      -2500 ≤ q.y ∧ q.y ≤ 2500 - nodeSized.height ∧
      (({ x := 10000, y := 0 } : Point) = { x := 10000, y := 0 } → q.x = 2500 - nodeSized.width) ∧
      move_node { viewWithNode with nodes := mapInsert viewWithNode.nodes 1 (nodeSized, q) } 1 q
        = some { viewWithNode with nodes := mapInsert viewWithNode.nodes 1 (nodeSized, q) }) :=
  ⟨⟨rfl, by norm_num [nodeSized], by norm_num [nodeSized],
      by norm_num [nodeSized], by norm_num [nodeSized]⟩,
    move_node_clamps viewWithNode 1 nodeSized { x := 0, y := 0 } { x := 10000, y := 0 } rfl
      (by norm_num [nodeSized]) (by norm_num [nodeSized])
      (by norm_num [nodeSized]) (by norm_num [nodeSized])⟩

/-- C7: applying PortAdded for a node id absent from the model logs an
error and leaves the nodes and links unchanged (the port is dropped, not
queued); a NodeAdded for that id applied later with a freshly created node
leaves that node with zero ports. -/
theorem add_port_missing_node (g : GraphView) (node_id port_id : Nat) (port : Port)
    (label : String) (ty : Option NodeType) (h : mapGet g.nodes node_id = none) :
    (add_port g node_id port_id port).nodes = g.nodes ∧
    (add_port g node_id port_id port).links = g.links ∧
    (add_port g node_id port_id port).log
        = g.log ++ [(LogLevel.Error, "Node not found when trying to add port to graph")] ∧
    (∃ p, mapGet (add_node (add_port g node_id port_id port) node_id (Node.new label) ty).nodes
        node_id = some (Node.new label, p)) ∧
    (Node.new label).ports = [] := by
  have e : add_port g node_id port_id port
      = { g with
          log := g.log
            ++ [(LogLevel.Error, "Node not found when trying to add port to graph")] } := by
    simp [add_port, h]
  rw [e]
  exact ⟨rfl, rfl, rfl, ⟨_, mapGet_insert_self _ _ _⟩, rfl⟩

/-- Witness for C7: a stray PortAdded for node 5 on the empty sampleView,
followed by a NodeAdded for node 5. -/
theorem add_port_missing_node_witness :
    (mapGet sampleView.nodes 5 = none) ∧
    ((add_port sampleView 5 10 { name := "p" }).nodes = sampleView.nodes ∧
      (add_port sampleView 5 10 { name := "p" }).links = sampleView.links ∧
      (add_port sampleView 5 10 { name := "p" }).log
        = sampleView.log
            ++ [(LogLevel.Error, "Node not found when trying to add port to graph")] ∧
      (∃ p, mapGet (add_node (add_port sampleView 5 10 { name := "p" }) 5
          (Node.new "m") none).nodes 5 = some (Node.new "m", p)) ∧
      (Node.new "m").ports = []) :=
  ⟨rfl, add_port_missing_node sampleView 5 10 { name := "p" } "m" none rfl⟩

/-- C8 counterexample: with one inactive link, raising the zoom factor from
1 to 2 doubles the stroke width but leaves the dash pattern at the fixed
segments 10, 5 instead of scaling them to 20, 10. -/
theorem snapshot_links_dash_cex :
    snapshot_links viewWithLink = [(2, [10, 5])] ∧
    snapshot_links viewWithLinkZoom2 = [(4, [10, 5])] ∧
    ¬ ((snapshot_links viewWithLinkZoom2).map Prod.snd
        = (snapshot_links viewWithLink).map fun s => s.2.map fun v => 2 * v) := by
  refine ⟨?_, ?_, ?_⟩ <;>
    norm_num [snapshot_links, viewWithLink, viewWithLinkZoom2, sampleView]

/-- C8 amended: the stroke width of every rendered link is 2 x zoom and so
scales proportionally with the zoom factor, while the dash pattern of each
link does not depend on the zoom factor at all (inactive links keep the
fixed segments 10, 5). -/
theorem snapshot_links_scaling (g : GraphView) (z : ℚ) :
    ((snapshot_links { g with zoom_factor := z }).map Prod.fst
        = (snapshot_links { g with zoom_factor := 1 }).map fun s => z * s.1) ∧
    ((snapshot_links { g with zoom_factor := z }).map Prod.snd
        = (snapshot_links { g with zoom_factor := 1 }).map Prod.snd) := by
  constructor <;> norm_num [snapshot_links, List.map_map, mul_comm, Function.comp_def]

/-- C9 counterexample: calling move_node for a node id absent from the
model hits the expect panic, modelled as the none result. -/
theorem move_node_absent_cex : move_node sampleView 0 { x := 0, y := 0 } = none := rfl

/-- C9 amended: for every node id present in the model whose footprint does
not exceed the canvas extent (width and height at most 5000, which covers
the zero-size footprint of a node widget with no allocated size yet),
move_node completes without fatal error and stores the clamped position;
a call for an absent id (and an f32::clamp call with a footprint beyond
the canvas extent) is a fatal panic, not a propagated failure. -/
theorem move_node_present_total (g : GraphView) (id : Nat) (n : Node) (p0 pt : Point)
    (h : mapGet g.nodes id = some (n, p0))
    (hw : n.width ≤ 5000) (hh : n.height ≤ 5000) :
    move_node g id pt = some { g with nodes := mapInsert g.nodes id (n,
      { x := rustClamp pt.x (-(CANVAS_SIZE / 2)) (CANVAS_SIZE / 2 - n.width)
        y := rustClamp pt.y (-(CANVAS_SIZE / 2)) (CANVAS_SIZE / 2 - n.height) }) } := by
  have hcx := rustClampChecked_of_le pt.x (-(CANVAS_SIZE / 2)) (CANVAS_SIZE / 2 - n.width)
    (by norm_num [CANVAS_SIZE]; linarith)
  have hcy := rustClampChecked_of_le pt.y (-(CANVAS_SIZE / 2)) (CANVAS_SIZE / 2 - n.height)
    (by norm_num [CANVAS_SIZE]; linarith)
  simp [move_node, h, hcx, hcy]

/-- Witness for the amended C9 at a concrete state. -/
theorem move_node_present_total_witness :
    (mapGet viewWithNode.nodes 1 = some (nodeSized, { x := 0, y := 0 }) ∧
      nodeSized.width ≤ 5000 ∧ nodeSized.height ≤ 5000) ∧
    (move_node viewWithNode 1 { x := 3, y := 4 }
      = some { viewWithNode with nodes := mapInsert viewWithNode.nodes 1 (nodeSized,
          { x := rustClamp 3 (-(CANVAS_SIZE / 2)) (CANVAS_SIZE / 2 - nodeSized.width)
            y := rustClamp 4 (-(CANVAS_SIZE / 2)) (CANVAS_SIZE / 2 - nodeSized.height) }) }) :=
  ⟨⟨rfl, by norm_num [nodeSized], by norm_num [nodeSized]⟩,
    move_node_present_total viewWithNode 1 nodeSized { x := 0, y := 0 } { x := 3, y := 4 } rfl
      (by norm_num [nodeSized]) (by norm_num [nodeSized])⟩

/-- C10: add_link with an id already present silently overwrites the entry
with the new pair (last write wins): afterwards the id maps to exactly the
new pair, every other id is untouched, and no validation of the referenced
endpoints happens and nothing is logged (nodes and log are unchanged). -/
theorem add_link_overwrites (g : GraphView) (id : Nat) (old : PipewireLink × Bool)
    (l : PipewireLink) (a : Bool) (h : mapGet g.links id = some old) :
    mapGet (add_link g id l a).links id = some (l, a) ∧
    (∀ k, k ≠ id → mapGet (add_link g id l a).links k = mapGet g.links k) ∧
    (add_link g id l a).nodes = g.nodes ∧
    (add_link g id l a).log = g.log :=
  ⟨mapGet_insert_self _ _ _, fun _ hk => mapGet_insert_ne _ _ _ _ hk, rfl, rfl⟩

/-- A second concrete link, used to overwrite linkAB under the same id. -/
def linkCD : PipewireLink :=
  { node_from := 7, port_from := 70, node_to := 8, port_to := 80 }

/-- Witness for C10: overwriting link 100 of viewWithLink. -/
theorem add_link_overwrites_witness :
    (mapGet viewWithLink.links 100 = some (linkAB, false)) ∧
    (mapGet (add_link viewWithLink 100 linkCD true).links 100 = some (linkCD, true) ∧
    (∀ k, k ≠ 100 →
      mapGet (add_link viewWithLink 100 linkCD true).links k = mapGet viewWithLink.links k) ∧
    (add_link viewWithLink 100 linkCD true).nodes = viewWithLink.nodes ∧
    (add_link viewWithLink 100 linkCD true).log = viewWithLink.log) :=
  ⟨rfl, add_link_overwrites viewWithLink 100 (linkAB, false) linkCD true rfl⟩

end Helvum
